import Mathlib

/-!
Shallow embedding of the catalog web application in `src/app.py`
(a Flask app persisting products and categories in two JSON files,
with image ingestion that converts uploads to WebP when possible).

Modelling conventions:
* JSON dict records for products and categories become Lean structures.
  The optional `views` key of a product dict is `Option Int` (the code
  checks membership of the key); all other fields are always present in
  records the application itself writes.
* Python `float` prices are modelled as `Rat`; no claim computes with them.
* The uploads folder is an association list from filename to file content.
  `os.remove` raises `FileNotFoundError` on a missing name; the handlers
  wrap it in `try/except: pass`, modelled by `tryRemove`.
* PIL is external: `Image.open` is modelled by the `decoded` field of an
  upload (`none` when opening raises), `image.save(..., webp, quality)` by
  the `FileContent.webpEnc` constructor (with `encodeOk = false` when
  saving raises), and `convert RGBA` by `convertRGBA`, which, as in PIL,
  changes the mode and keeps the pixel dimensions.
* `werkzeug.secure_filename` is external; handlers take it as an explicit
  function argument `sanitize`.
* `time.time()` is passed in as an explicit `now` argument.
-/

/-- Python `os.path.basename` for the forward-slash separator: the part of
the path after the last `/`. -/
def basename (s : String) : String :=
  (s.splitOn "/").getLastD s

/-- Python `os.path.splitext`: split off the extension beginning at the last
dot, provided some earlier character of the (separator-free) name is not a
dot; otherwise the extension is empty. -/
def splitext (p : String) : String × String :=
  let cs := p.toList
  let sepIdx : Int := ((List.range cs.length).filter
    (fun i => cs.getD i ' ' = '/')).foldl (fun _ i => (i : Int)) (-1)
  let dotIdx : Int := ((List.range cs.length).filter
    (fun i => cs.getD i ' ' = '.')).foldl (fun _ i => (i : Int)) (-1)
  if dotIdx > sepIdx then
    let f0 := (sepIdx + 1).toNat
    let d := dotIdx.toNat
    if ((cs.drop f0).take (d - f0)).any (fun c => c ≠ '.') then
      (⟨cs.take d⟩, ⟨cs.drop d⟩)
    else (p, "")
  else (p, "")

/-- PIL image modes relevant to `save_image`. -/
inductive PILMode where
  | P | PA | RGBA | RGB | L
  | other (name : String)
deriving DecidableEq

/-- Abstract PIL image: mode plus pixel dimensions and opaque pixel data. -/
structure PILImage where
  mode : PILMode
  width : Nat
  height : Nat
  pixels : List Nat
deriving DecidableEq

/-- PIL `image.convert("RGBA")`: changes the mode, keeps the dimensions. -/
def convertRGBA (img : PILImage) : PILImage :=
  { img with mode := PILMode.RGBA }

/-- Contents of a file in the uploads folder: either the WebP encoding of a
PIL image at some quality, or raw bytes copied from the upload stream. -/
inductive FileContent where
  | webpEnc (quality : Nat) (img : PILImage)
  | raw (bytes : List Nat)
deriving DecidableEq

/-- The uploads folder: an association list from filename to content. -/
abbrev FS := List (String × FileContent)

/-- `os.remove`: fails with `FileNotFoundError` when no file has the name. -/
def os_remove (fs : FS) (name : String) : Except Unit FS :=
  if (List.any fs (fun e => e.1 = name)) then
    Except.ok (List.filter (fun e => e.1 ≠ name) fs)
  else Except.error ()

/-- `try: os.remove(...) except FileNotFoundError: pass`. -/
def tryRemove (fs : FS) (name : String) : FS :=
  match os_remove fs name with
  | Except.ok fs1 => fs1
  | Except.error _ => fs

/-- Writing a file, replacing any previous file of the same name. -/
def setFile (fs : FS) (name : String) (c : FileContent) : FS :=
  (name, c) :: List.filter (fun e => e.1 ≠ name) fs

/-- A werkzeug `FileStorage` upload: its filename, its raw byte stream, the
result of `PIL.Image.open` on it (`none` when opening raises), and whether a
subsequent WebP `save` succeeds. -/
structure FileStorage where
  filename : String
  content : List Nat
  decoded : Option PILImage
  encodeOk : Bool
deriving DecidableEq

/-- A product record, per the JSON schema the handlers read and write. -/
structure Product where
  id : Int
  name : String
  description : String
  price : Rat
  image : String
  category_id : Int
  views : Option Int
deriving DecidableEq

/-- A category record. -/
structure Category where
  id : Int
  name : String
  image : String
deriving DecidableEq

/-- `url_for` for the uploaded-file route. -/
def uploadsUrl (filename : String) : String :=
  "/uploads/" ++ filename

/-- The extensions `save_image` attempts to convert to WebP. -/
def supported_formats_for_conversion : List String :=
  [".png", ".jpg", ".jpeg", ".bmp", ".gif", ".tiff"]

/-- Python `str.lower()` (ASCII range, which covers every extension the
code compares against). -/
def lowerString (s : String) : String :=
  ⟨s.toList.map Char.toLower⟩

/-- Result of `save_image`: the uploads folder afterwards, the stored
filename, and the conversion flag. -/
structure SaveImageResult where
  fs : FS
  filename : String
  converted : Bool
deriving DecidableEq

/-- `save_image(file_storage, output_folder, basename)` from `src/app.py`.
If the sanitized original filename has a supported raster extension, try to
decode the upload and re-encode it as WebP at quality 85 (palette modes
first converted to RGBA), returning the `.webp` name and `True`.  On decode
or encode failure, or for other extensions, store the original bytes under
the original extension and return `False`. -/
def save_image (sanitize : String → String) (fs : FS) (file : FileStorage)
    (basenameArg : String) : SaveImageResult :=
  let original_filename := sanitize file.filename
  let original_extension := lowerString (splitext original_filename).2
  let fallback : SaveImageResult :=
    let final_filename := basenameArg ++ original_extension
    { fs := setFile fs final_filename (FileContent.raw file.content)
      filename := final_filename
      converted := false }
  if original_extension ∈ supported_formats_for_conversion then
    match file.decoded with
    | some image0 =>
      if file.encodeOk then
        let image1 := if image0.mode = PILMode.P ∨ image0.mode = PILMode.PA
          then convertRGBA image0 else image0
        let webp_filename := basenameArg ++ ".webp"
        { fs := setFile fs webp_filename (FileContent.webpEnc 85 image1)
          filename := webp_filename
          converted := true }
      else fallback
    | none => fallback
  else fallback

/-- State of one JSON store file on disk, as `json.load` sees it. -/
inductive StoreFile (α : Type) where
  | missing
  | corrupt
  | good (data : List α)
deriving DecidableEq

/-- `load_products` from `src/app.py`: on `FileNotFoundError` or
`json.JSONDecodeError` write an empty list back and return `[]`; otherwise
return the decoded contents, leaving the file as it was.  The result pairs
the returned list with the file state afterwards. -/
def load_products (f : StoreFile Product) : List Product × StoreFile Product :=
  match f with
  | StoreFile.missing => ([], StoreFile.good [])
  | StoreFile.corrupt => ([], StoreFile.good [])
  | StoreFile.good data => (data, StoreFile.good data)

/-- `load_categories` from `src/app.py`, same recovery as `load_products`. -/
def load_categories (f : StoreFile Category) :
    List Category × StoreFile Category :=
  match f with
  | StoreFile.missing => ([], StoreFile.good [])
  | StoreFile.corrupt => ([], StoreFile.good [])
  | StoreFile.good data => (data, StoreFile.good data)

/-- `max([x['id'] for x in coll]) + 1 if coll else 1`, the id assignment
used by both creation handlers. -/
def newId : List Int → Int
  | [] => 1
  | x :: xs => (List.foldl max x xs) + 1

/-- The HTTP outcome of a POST handler (all of them redirect). -/
inductive Response where
  | redirect (endpoint : String)
deriving DecidableEq

/-- Outcome of the `record_view` endpoint. -/
inductive RVResp where
  | success
  | notFound
deriving DecidableEq

/-- Replace the first element satisfying `pred` by its image under `f`
(mutation through the reference returned by Python `next(...)`). -/
def updateFirst (pred : α → Bool) (f : α → α) : List α → List α
  | [] => []
  | x :: xs => if pred x then f x :: xs else x :: updateFirst pred f xs

/-- Form data of the admin product-creation POST.  `imageUpload` is the
`image` entry of `request.files` when present. -/
structure CreateProductForm where
  name : String
  description : String
  price : Rat
  category_id : Int
  imageUpload : Option FileStorage
deriving DecidableEq

/-- Result of a handler that may touch the uploads folder and the products
store. -/
structure ProductsResult where
  fs : FS
  products : List Product
  flashes : List String
  response : Response
deriving DecidableEq

/-- The POST branch of `admin` in `src/app.py`: compute the next id, demand
an image, ingest it, append the new product and save. -/
def admin_post (sanitize : String → String) (fs : FS)
    (products : List Product) (form : CreateProductForm) : ProductsResult :=
  let new_id := newId (products.map (fun p => p.id))
  match form.imageUpload with
  | none =>
    { fs := fs, products := products
      flashes := ["La imagen es obligatoria."]
      response := Response.redirect "request.url" }
  | some file =>
    if file.filename = "" then
      { fs := fs, products := products
        flashes := ["La imagen es obligatoria."]
        response := Response.redirect "request.url" }
    else
      let r := save_image sanitize fs file ("product_" ++ toString new_id)
      let warn := if r.converted then [] else
        ["El formato de la imagen no es compatible para la conversión a WebP. Se ha guardado la imagen original."]
      let new_product : Product :=
        { id := new_id
          name := form.name
          description := form.description
          price := form.price
          image := uploadsUrl r.filename
          category_id := form.category_id
          views := some 0 }
      { fs := r.fs
        products := products ++ [new_product]
        flashes := warn ++ ["Producto agregado exitosamente!"]
        response := Response.redirect "admin" }

/-- Form data of the product-edit POST. -/
structure EditProductForm where
  name : String
  description : String
  price : Rat
  category_id : Int
  imageUpload : Option FileStorage
deriving DecidableEq

/-- The text-field mutation `edit_product` applies to the found product. -/
def applyEditFields (form : EditProductForm) (p : Product) : Product :=
  { p with
    name := form.name
    description := form.description
    price := form.price
    category_id := form.category_id }

/-- The POST branch of `edit_product` in `src/app.py`: find the product by
id; update its text fields; when a replacement image is uploaded, remove
the old image file (ignoring `FileNotFoundError`), ingest the new one and
point the product at it; save. -/
def edit_product (sanitize : String → String) (now : Int) (fs : FS)
    (products : List Product) (product_id : Int) (form : EditProductForm) :
    ProductsResult :=
  match List.find? (fun p => p.id == product_id) products with
  | none =>
    { fs := fs, products := products
      flashes := ["Producto no encontrado."]
      response := Response.redirect "admin" }
  | some p0 =>
    let hasUpload := match form.imageUpload with
      | none => false
      | some file => file.filename ≠ ""
    match form.imageUpload, hasUpload with
    | some file, true =>
      let fs1 := if p0.image ≠ "" then
        tryRemove fs (sanitize (basename p0.image)) else fs
      let base := "product_" ++ toString product_id ++ "_" ++ toString now
      let r := save_image sanitize fs1 file base
      let warn := if r.converted then [] else
        ["El formato de la imagen no es compatible para la conversión a WebP. Se ha guardado la imagen original."]
      { fs := r.fs
        products := updateFirst (fun p => p.id == product_id)
          (fun p => { applyEditFields form p with image := uploadsUrl r.filename })
          products
        flashes := warn ++ ["Producto actualizado exitosamente!"]
        response := Response.redirect "admin" }
    | _, _ =>
      { fs := fs
        products := updateFirst (fun p => p.id == product_id)
          (applyEditFields form) products
        flashes := ["Producto actualizado exitosamente!"]
        response := Response.redirect "admin" }

/-- `delete_product` in `src/app.py`: find the product; if it exists and has
an image, remove the file (ignoring `FileNotFoundError`); keep every product
whose id differs; save; flash success. -/
def delete_product (sanitize : String → String) (fs : FS)
    (products : List Product) (product_id : Int) : ProductsResult :=
  let fs1 := match List.find? (fun p => p.id == product_id) products with
    | some p0 =>
      if p0.image ≠ "" then tryRemove fs (sanitize (basename p0.image)) else fs
    | none => fs
  { fs := fs1
    products := List.filter (fun p => p.id ≠ product_id) products
    flashes := ["Producto eliminado exitosamente!"]
    response := Response.redirect "admin" }

/-- Form data of the category-creation POST. -/
structure CreateCategoryForm where
  name : String
  imageUpload : Option FileStorage
deriving DecidableEq

/-- Result of a handler that may touch the uploads folder and the categories
store. -/
structure CategoriesResult where
  fs : FS
  categories : List Category
  flashes : List String
  response : Response
deriving DecidableEq

/-- The POST branch of `manage_categories` in `src/app.py`. -/
def manage_categories_post (sanitize : String → String) (fs : FS)
    (categories : List Category) (form : CreateCategoryForm) :
    CategoriesResult :=
  let new_id := newId (categories.map (fun c => c.id))
  match form.imageUpload with
  | none =>
    { fs := fs, categories := categories
      flashes := ["La imagen de la categoría es obligatoria."]
      response := Response.redirect "request.url" }
  | some file =>
    if file.filename = "" then
      { fs := fs, categories := categories
        flashes := ["La imagen de la categoría es obligatoria."]
        response := Response.redirect "request.url" }
    else
      let r := save_image sanitize fs file ("category_" ++ toString new_id)
      let warn := if r.converted then [] else
        ["El formato de la imagen no es compatible para la conversión a WebP. Se ha guardado la imagen original."]
      let new_category : Category :=
        { id := new_id
          name := form.name
          image := uploadsUrl r.filename }
      { fs := r.fs
        categories := categories ++ [new_category]
        flashes := warn ++ ["Categoría agregada exitosamente!"]
        response := Response.redirect "manage_categories" }

/-- Form data of the category-edit POST. -/
structure EditCategoryForm where
  name : String
  imageUpload : Option FileStorage
deriving DecidableEq

/-- The POST branch of `edit_category` in `src/app.py`. -/
def edit_category (sanitize : String → String) (now : Int) (fs : FS)
    (categories : List Category) (category_id : Int)
    (form : EditCategoryForm) : CategoriesResult :=
  match List.find? (fun c => c.id == category_id) categories with
  | none =>
    { fs := fs, categories := categories
      flashes := ["Categoría no encontrada."]
      response := Response.redirect "manage_categories" }
  | some c0 =>
    let hasUpload := match form.imageUpload with
      | none => false
      | some file => file.filename ≠ ""
    match form.imageUpload, hasUpload with
    | some file, true =>
      let fs1 := if c0.image ≠ "" then
        tryRemove fs (sanitize (basename c0.image)) else fs
      let base := "category_" ++ toString category_id ++ "_" ++ toString now
      let r := save_image sanitize fs1 file base
      let warn := if r.converted then [] else
        ["El formato de la imagen no es compatible para la conversión a WebP. Se ha guardado la imagen original."]
      { fs := r.fs
        categories := updateFirst (fun c => c.id == category_id)
          (fun c => { c with name := form.name, image := uploadsUrl r.filename })
          categories
        flashes := warn ++ ["Categoría actualizada exitosamente!"]
        response := Response.redirect "manage_categories" }
    | _, _ =>
      { fs := fs
        categories := updateFirst (fun c => c.id == category_id)
          (fun c => { c with name := form.name }) categories
        flashes := ["Categoría actualizada exitosamente!"]
        response := Response.redirect "manage_categories" }

/-- Result of `delete_category`, which touches both stores. -/
structure DeleteCategoryResult where
  fs : FS
  categories : List Category
  products : List Product
  flashes : List String
  response : Response
deriving DecidableEq

/-- The product loop of `delete_category`: walk the products in order; for
each one in the deleted category, remove its image file (ignoring
`FileNotFoundError`) and count it; keep the others.  Returns the uploads
folder, the kept products and the deleted count. -/
def deleteCatProducts (sanitize : String → String) (category_id : Int) :
    FS → List Product → FS × List Product × Nat
  | fs, [] => (fs, [], 0)
  | fs, p :: rest =>
    if p.category_id = category_id then
      let fs1 := if p.image ≠ "" then
        tryRemove fs (sanitize (basename p.image)) else fs
      let r := deleteCatProducts sanitize category_id fs1 rest
      (r.1, r.2.1, r.2.2 + 1)
    else
      let r := deleteCatProducts sanitize category_id fs rest
      (r.1, p :: r.2.1, r.2.2)

/-- `delete_category` in `src/app.py`: if the category exists, remove its
image file, drop it from the categories store, then delete every product of
the category together with its image file (products are rewritten only when
at least one was deleted, which leaves the same contents either way). -/
def delete_category (sanitize : String → String) (fs : FS)
    (categories : List Category) (products : List Product)
    (category_id : Int) : DeleteCategoryResult :=
  match List.find? (fun c => c.id == category_id) categories with
  | none =>
    { fs := fs, categories := categories, products := products
      flashes := ["Categoría no encontrada."]
      response := Response.redirect "manage_categories" }
  | some c0 =>
    let fs1 := if c0.image ≠ "" then
      tryRemove fs (sanitize (basename c0.image)) else fs
    let categories1 := List.filter (fun c => c.id ≠ category_id) categories
    let loop := deleteCatProducts sanitize category_id fs1 products
    let products1 := if loop.2.2 > 0 then loop.2.1 else products
    { fs := loop.1
      categories := categories1
      products := products1
      flashes := ["Categoría y " ++ toString loop.2.2 ++
        " producto(s) asociado(s) eliminados exitosamente!"]
      response := Response.redirect "manage_categories" }

/-- `record_view` in `src/app.py`: find the product by id; if found, set a
missing `views` to 0, add one, save, and report success; otherwise 404. -/
def record_view (products : List Product) (product_id : Int) :
    List Product × RVResp :=
  match List.find? (fun p => p.id == product_id) products with
  | some _ =>
    (updateFirst (fun p => p.id == product_id)
      (fun p => { p with views := some (p.views.getD 0 + 1) }) products,
     RVResp.success)
  | none => (products, RVResp.notFound)

/-- The sort key of the featured-products computation:
`x.get(views, 0)`. -/
def viewsKey (p : Product) : Int :=
  p.views.getD 0

/-- The ordering of Python `sorted(..., key=..., reverse=True)`: an element
may precede another exactly when its key is at least as large; a stable sort
under this total preorder is the descending stable sort Python performs. -/
def featRel (a b : Product) : Prop :=
  viewsKey b ≤ viewsKey a

instance : DecidableRel featRel := fun a b =>
  inferInstanceAs (Decidable (viewsKey b ≤ viewsKey a))

instance : IsTotal Product featRel :=
  ⟨fun a b => (le_total (viewsKey b) (viewsKey a)).imp id id⟩

instance : IsTrans Product featRel :=
  ⟨fun _ _ _ h1 h2 => le_trans h2 h1⟩

/-- The featured-products list of the index page:
`sorted([p for p in products if views in p], key=..., reverse=True)[:4]`. -/
def featured_products (products : List Product) : List Product :=
  (List.insertionSort featRel
    (List.filter (fun p => p.views.isSome) products)).take 4

/-- Look a file up by name in the uploads folder. -/
def getFile (fs : FS) (name : String) : Option FileContent :=
  (List.find? (fun e => e.1 = name) fs).map (fun e => e.2)

/-- Referential integrity between the two stores: every product points at
an existing category. -/
def refIntegrity (products : List Product) (categories : List Category) :
    Prop :=
  ∀ p ∈ products, ∃ c ∈ categories, c.id = p.category_id

instance (products : List Product) (categories : List Category) :
    Decidable (refIntegrity products categories) :=
  inferInstanceAs (Decidable (∀ p ∈ products, ∃ c ∈ categories,
    c.id = p.category_id))

theorem getFile_setFile (fs : FS) (name : String) (c : FileContent) :
    getFile (setFile fs name c) name = some c := by
  simp [getFile, setFile]

theorem find?_append_first (pred : α → Bool) (l₁ l₂ : List α) (p : α)
    (h1 : ∀ q ∈ l₁, pred q = false) (hp : pred p = true) :
    List.find? pred (l₁ ++ p :: l₂) = some p := by
  induction l₁ with
  | nil => simp [List.find?_cons, hp]
  | cons a l ih =>
    have ha := h1 a (List.mem_cons_self a l)
    simp only [List.cons_append, List.find?_cons, ha]
    exact ih (fun q hq => h1 q (List.mem_cons_of_mem a hq))

theorem updateFirst_append (pred : α → Bool) (f : α → α)
    (l₁ l₂ : List α) (p : α)
    (h1 : ∀ q ∈ l₁, pred q = false) (hp : pred p = true) :
    updateFirst pred f (l₁ ++ p :: l₂) = l₁ ++ f p :: l₂ := by
  induction l₁ with
  | nil => simp [updateFirst, hp]
  | cons a l ih =>
    have ha := h1 a (List.mem_cons_self a l)
    simp only [List.cons_append, updateFirst, ha, Bool.false_eq_true,
      if_false]
    exact congrArg (a :: ·) (ih (fun q hq => h1 q (List.mem_cons_of_mem a hq)))

theorem updateFirst_mem (pred : α → Bool) (f : α → α) (l : List α)
    (x : α) (hx : x ∈ updateFirst pred f l) :
    x ∈ l ∨ ∃ y ∈ l, x = f y := by
  induction l with
  | nil => cases hx
  | cons a l ih =>
    by_cases ha : pred a = true
    · simp only [updateFirst, ha, if_true] at hx
      rcases List.mem_cons.mp hx with h | h
      · exact Or.inr ⟨a, List.mem_cons_self a l, h⟩
      · exact Or.inl (List.mem_cons_of_mem a h)
    · simp only [updateFirst, ha, if_false] at hx
      rcases List.mem_cons.mp hx with h | h
      · exact Or.inl (h ▸ List.mem_cons_self a l)
      · rcases ih h with h2 | ⟨y, hy, hxy⟩
        · exact Or.inl (List.mem_cons_of_mem a h2)
        · exact Or.inr ⟨y, List.mem_cons_of_mem a hy, hxy⟩

theorem le_foldl_max (xs : List Int) :
    ∀ x y : Int, x ≤ y → x ≤ List.foldl max y xs := by
  induction xs with
  | nil => intro x y h; simpa using h
  | cons a xs ih =>
    intro x y h
    exact ih x (max y a) (le_trans h (le_max_left y a))

theorem foldl_max_mem (xs : List Int) :
    ∀ x : Int, List.foldl max x xs = x ∨ List.foldl max x xs ∈ xs := by
  induction xs with
  | nil => intro x; simp
  | cons a xs ih =>
    intro x
    rcases ih (max x a) with h | h
    · rcases max_choice x a with hm | hm
      · left; rw [List.foldl_cons, h, hm]
      · right; rw [List.foldl_cons, h, hm]; exact List.mem_cons_self a xs
    · right
      rw [List.foldl_cons]
      exact List.mem_cons_of_mem a h

theorem foldl_max_ub (xs : List Int) :
    ∀ x y : Int, y ∈ xs → y ≤ List.foldl max x xs := by
  induction xs with
  | nil => intro x y h; cases h
  | cons a xs ih =>
    intro x y h
    rcases List.mem_cons.mp h with rfl | h
    · exact le_foldl_max xs y (max x y) (le_max_right x y)
    · exact ih (max x a) y h

theorem tryRemove_eq_filter (fs : FS) (name : String) :
    tryRemove fs name = List.filter (fun e => e.1 ≠ name) fs := by
  unfold tryRemove os_remove
  by_cases h : List.any fs (fun e => e.1 = name) = true
  · simp [h]
  · simp only [h, Bool.false_eq_true, if_false]
    have hall : ∀ e ∈ fs, ¬ e.1 = name := by
      intro e he
      have := (List.any_eq_false).mp (Bool.eq_false_iff.mpr h) e he
      simpa using this
    exact ((List.filter_eq_self).mpr (by
      intro e he
      simpa using hall e he)).symm

theorem newId_spec (ids : List Int) :
    (ids = [] → newId ids = 1) ∧
    (ids ≠ [] → ∃ m ∈ ids, (∀ y ∈ ids, y ≤ m) ∧ newId ids = m + 1) := by
  cases ids with
  | nil => exact ⟨fun _ => rfl, fun h => absurd rfl h⟩
  | cons x xs =>
    constructor
    · intro h
      exact absurd h (by simp)
    intro _
    refine ⟨List.foldl max x xs, ?_, ?_, rfl⟩
    · rcases foldl_max_mem xs x with h | h
      · rw [h]; exact List.mem_cons_self x xs
      · exact List.mem_cons_of_mem x h
    · intro y hy
      rcases List.mem_cons.mp hy with rfl | hy
      · exact le_foldl_max xs y y le_rfl
      · exact foldl_max_ub xs x y hy

theorem admin_post_appends (sanitize : String → String) (fs : FS)
    (products : List Product) (form : CreateProductForm) (file : FileStorage)
    (h : form.imageUpload = some file) (hn : file.filename ≠ "") :
    ∃ p : Product,
      (admin_post sanitize fs products form).products = products ++ [p] ∧
      p.id = newId (products.map Product.id) ∧
      p.category_id = form.category_id ∧
      p.views = some 0 := by
  simp only [admin_post, h, hn]
  exact ⟨_, rfl, rfl, rfl, rfl⟩

theorem manage_categories_post_appends (sanitize : String → String)
    (fs : FS) (categories : List Category) (form : CreateCategoryForm)
    (file : FileStorage)
    (h : form.imageUpload = some file) (hn : file.filename ≠ "") :
    ∃ c : Category,
      (manage_categories_post sanitize fs categories form).categories =
        categories ++ [c] ∧
      c.id = newId (categories.map Category.id) := by
  simp only [manage_categories_post, h, hn]
  exact ⟨_, rfl, rfl⟩

/-- Claim C4: when the creation handlers actually create (an image upload
with a nonempty filename is present), the appended product gets id
`max(existing product ids) + 1` for a nonempty store and `1` for an empty
one, and the appended category gets the analogous id over the category
store. -/
theorem created_ids_max_plus_one (sanitize : String → String)
    (fsP fsC : FS) (products : List Product) (categories : List Category)
    (pform : CreateProductForm) (cform : CreateCategoryForm)
    (pfile cfile : FileStorage)
    (hp : pform.imageUpload = some pfile) (hpn : pfile.filename ≠ "")
    (hc : cform.imageUpload = some cfile) (hcn : cfile.filename ≠ "") :
    (∃ p : Product,
      (admin_post sanitize fsP products pform).products = products ++ [p] ∧
      (products = [] → p.id = 1) ∧
      (products ≠ [] → ∃ m ∈ products.map Product.id,
        (∀ y ∈ products.map Product.id, y ≤ m) ∧ p.id = m + 1)) ∧
    (∃ c : Category,
      (manage_categories_post sanitize fsC categories cform).categories =
        categories ++ [c] ∧
      (categories = [] → c.id = 1) ∧
      (categories ≠ [] → ∃ m ∈ categories.map Category.id,
        (∀ y ∈ categories.map Category.id, y ≤ m) ∧ c.id = m + 1)) := by
  constructor
  · obtain ⟨p, hout, hid, -, -⟩ :=
      admin_post_appends sanitize fsP products pform pfile hp hpn
    refine ⟨p, hout, ?_, ?_⟩
    · intro hnil
      rw [hid, hnil]
      rfl
    · intro hne
      have hids : products.map Product.id ≠ [] := by
        simpa using hne
      obtain ⟨m, hm, hub, hval⟩ := (newId_spec (products.map Product.id)).2 hids
      exact ⟨m, hm, hub, by rw [hid, hval]⟩
  · obtain ⟨c, hout, hid⟩ :=
      manage_categories_post_appends sanitize fsC categories cform cfile hc hcn
    refine ⟨c, hout, ?_, ?_⟩
    · intro hnil
      rw [hid, hnil]
      rfl
    · intro hne
      have hids : categories.map Category.id ≠ [] := by
        simpa using hne
      obtain ⟨m, hm, hub, hval⟩ := (newId_spec (categories.map Category.id)).2 hids
      exact ⟨m, hm, hub, by rw [hid, hval]⟩

def demoImg : PILImage :=
  { mode := PILMode.RGB, width := 2, height := 3, pixels := [7] }

def demoFile : FileStorage :=
  { filename := "f.png", content := [1], decoded := some demoImg,
    encodeOk := true }

def demoP1 : Product :=
  { id := 1, name := "a", description := "", price := 0,
    image := "/uploads/product_1.webp", category_id := 1, views := some 3 }

def demoP2 : Product :=
  { id := 2, name := "b", description := "", price := 0,
    image := "", category_id := 1, views := none }

def demoCat : Category :=
  { id := 1, name := "Ropa", image := "/uploads/category_1.webp" }

def demoPForm : CreateProductForm :=
  { name := "X", description := "d", price := 0, category_id := 1,
    imageUpload := some demoFile }

def demoCForm : CreateCategoryForm :=
  { name := "Y", imageUpload := some demoFile }

theorem created_ids_max_plus_one_witness :
    (∃ p : Product,
      (admin_post id [] [demoP1] demoPForm).products = [demoP1] ++ [p] ∧
      ([demoP1] = ([] : List Product) → p.id = 1) ∧
      (([demoP1] : List Product) ≠ [] → ∃ m ∈ [demoP1].map Product.id,
        (∀ y ∈ [demoP1].map Product.id, y ≤ m) ∧ p.id = m + 1)) ∧
    (∃ c : Category,
      (manage_categories_post id [] [demoCat] demoCForm).categories =
        [demoCat] ++ [c] ∧
      ([demoCat] = ([] : List Category) → c.id = 1) ∧
      (([demoCat] : List Category) ≠ [] → ∃ m ∈ [demoCat].map Category.id,
        (∀ y ∈ [demoCat].map Category.id, y ≤ m) ∧ c.id = m + 1)) :=
  created_ids_max_plus_one id [] [] [demoP1] [demoCat] demoPForm demoCForm
    demoFile demoFile rfl (by decide) rfl (by decide)

/-- Claim C5: a missing or undecodable store file loads as the empty
collection and is rewritten as an empty collection on the spot; a readable
store file loads as exactly its decoded contents, unchanged on disk.  This
holds for the products store and for the categories store. -/
theorem load_store_error_recovery :
    (load_products StoreFile.missing = ([], StoreFile.good []) ∧
     load_products StoreFile.corrupt = ([], StoreFile.good []) ∧
     ∀ data : List Product,
       load_products (StoreFile.good data) = (data, StoreFile.good data)) ∧
    (load_categories StoreFile.missing = ([], StoreFile.good []) ∧
     load_categories StoreFile.corrupt = ([], StoreFile.good []) ∧
     ∀ data : List Category,
       load_categories (StoreFile.good data) = (data, StoreFile.good data)) :=
  ⟨⟨rfl, rfl, fun _ => rfl⟩, ⟨rfl, rfl, fun _ => rfl⟩⟩

/-- Claim C10: `delete_product` keeps exactly the products whose id differs
from the given one, in their original relative order, always flashes
success and redirects, and leaves the store unchanged when no product has
the id. -/
theorem delete_product_spec (sanitize : String → String) (fs : FS)
    (products : List Product) (product_id : Int) :
    (delete_product sanitize fs products product_id).products =
      List.filter (fun p => p.id ≠ product_id) products ∧
    List.Sublist (delete_product sanitize fs products product_id).products
      products ∧
    (∀ p ∈ (delete_product sanitize fs products product_id).products,
      p ∈ products ∧ p.id ≠ product_id) ∧
    (∀ p ∈ products, p.id ≠ product_id →
      p ∈ (delete_product sanitize fs products product_id).products) ∧
    (delete_product sanitize fs products product_id).flashes =
      ["Producto eliminado exitosamente!"] ∧
    (delete_product sanitize fs products product_id).response =
      Response.redirect "admin" ∧
    ((∀ p ∈ products, p.id ≠ product_id) →
      (delete_product sanitize fs products product_id).products = products) := by
  refine ⟨rfl, ?_, ?_, ?_, rfl, rfl, ?_⟩
  · exact List.filter_sublist products
  · intro p hp
    have := List.mem_filter.mp hp
    simpa using this
  · intro p hp hne
    exact List.mem_filter.mpr ⟨hp, by simpa using hne⟩
  · intro h
    exact List.filter_eq_self.mpr (fun p hp => by simpa using h p hp)

theorem delete_product_spec_witness :
    (delete_product id [] [demoP1, demoP2] 5).products = [demoP1, demoP2] :=
  (delete_product_spec id [] [demoP1, demoP2] 5).2.2.2.2.2.2 (by decide)

/-- Claim C6: `record_view` on an id present in the store increments the
views counter of the (first) product with that id by one, treating a
missing counter as zero, leaves every other field and every other product
unchanged, and reports success; on an absent id it reports not-found and
leaves the store unchanged. -/
theorem record_view_spec (l₁ l₂ : List Product) (p0 : Product)
    (products : List Product) (product_id : Int) :
    ((products = l₁ ++ p0 :: l₂ ∧ p0.id = product_id ∧
        ∀ q ∈ l₁, q.id ≠ product_id) →
      record_view products product_id =
        (l₁ ++ { p0 with views := some (p0.views.getD 0 + 1) } :: l₂,
         RVResp.success)) ∧
    ((∀ q ∈ products, q.id ≠ product_id) →
      record_view products product_id = (products, RVResp.notFound)) := by
  constructor
  · rintro ⟨rfl, hp, hfirst⟩
    have hfind : List.find? (fun p => p.id == product_id) (l₁ ++ p0 :: l₂) =
        some p0 :=
      find?_append_first _ l₁ l₂ p0
        (fun q hq => beq_eq_false_iff_ne.mpr (hfirst q hq))
        (beq_iff_eq.mpr hp)
    unfold record_view
    rw [hfind]
    rw [updateFirst_append _ _ l₁ l₂ p0
      (fun q hq => beq_eq_false_iff_ne.mpr (hfirst q hq))
      (beq_iff_eq.mpr hp)]
  · intro h
    unfold record_view
    rw [List.find?_eq_none.mpr
      (fun q hq => by simpa using h q hq)]

theorem record_view_spec_witness :
    record_view [demoP1, demoP2] 2 =
      ([demoP1, { demoP2 with views := some (demoP2.views.getD 0 + 1) }],
       RVResp.success) ∧
    record_view [demoP1, demoP2] 5 = ([demoP1, demoP2], RVResp.notFound) :=
  ⟨(record_view_spec [demoP1] [] demoP2 [demoP1, demoP2] 2).1
      ⟨rfl, rfl, by decide⟩,
   (record_view_spec [] [] demoP1 [demoP1, demoP2] 5).2 (by decide)⟩

/-- Claim C2: when the sanitized upload filename has a lowercased extension
outside the supported raster set, or decoding raises, or the WebP re-encode
raises, `save_image` stores the original bytes under the target basename
plus the (lowercased) original extension and returns the flag `false`. -/
theorem save_image_fallback (sanitize : String → String) (fs : FS)
    (file : FileStorage) (basenameArg : String)
    (h : lowerString (splitext (sanitize file.filename)).2 ∉
          supported_formats_for_conversion ∨
         file.decoded = none ∨ file.encodeOk = false) :
    (save_image sanitize fs file basenameArg).filename =
      basenameArg ++ lowerString (splitext (sanitize file.filename)).2 ∧
    (save_image sanitize fs file basenameArg).converted = false ∧
    getFile (save_image sanitize fs file basenameArg).fs
        (basenameArg ++ lowerString (splitext (sanitize file.filename)).2) =
      some (FileContent.raw file.content) := by
  by_cases hext : lowerString (splitext (sanitize file.filename)).2 ∈
      supported_formats_for_conversion
  · rcases h with h1 | h2 | h3
    · exact absurd hext h1
    · refine ⟨?_, ?_, ?_⟩ <;>
        simp [save_image, hext, h2, getFile_setFile]
    · cases hd : file.decoded with
      | none =>
        refine ⟨?_, ?_, ?_⟩ <;>
          simp [save_image, hext, hd, getFile_setFile]
      | some img =>
        refine ⟨?_, ?_, ?_⟩ <;>
          simp [save_image, hext, hd, h3, getFile_setFile]
  · refine ⟨?_, ?_, ?_⟩ <;>
      simp [save_image, hext, getFile_setFile]

def demoTxtFile : FileStorage :=
  { filename := "f.txt", content := [9, 8], decoded := none,
    encodeOk := true }

theorem save_image_fallback_witness :
    (save_image id [] demoTxtFile "product_9").filename =
      "product_9" ++ lowerString (splitext (id demoTxtFile.filename)).2 ∧
    (save_image id [] demoTxtFile "product_9").converted = false ∧
    getFile (save_image id [] demoTxtFile "product_9").fs
        ("product_9" ++ lowerString (splitext (id demoTxtFile.filename)).2) =
      some (FileContent.raw demoTxtFile.content) :=
  save_image_fallback id [] demoTxtFile "product_9" (Or.inl (by decide))

/-- Claim C3: when the sanitized upload filename has a lowercased extension
in the supported raster set and both decode and re-encode succeed,
`save_image` stores a WebP encoding at fixed quality 85 under the target
basename with extension `.webp`, preserving the width and the height of the
decoded image (converting palette modes `P` and `PA` to RGBA first), and
returns the flag `true`. -/
theorem save_image_converts_webp (sanitize : String → String) (fs : FS)
    (file : FileStorage) (basenameArg : String) (img : PILImage)
    (hext : lowerString (splitext (sanitize file.filename)).2 ∈
      supported_formats_for_conversion)
    (hdec : file.decoded = some img) (henc : file.encodeOk = true) :
    (save_image sanitize fs file basenameArg).filename =
      basenameArg ++ ".webp" ∧
    (save_image sanitize fs file basenameArg).converted = true ∧
    ∃ img1 : PILImage,
      getFile (save_image sanitize fs file basenameArg).fs
          (basenameArg ++ ".webp") = some (FileContent.webpEnc 85 img1) ∧
      img1.width = img.width ∧ img1.height = img.height ∧
      ((img.mode = PILMode.P ∨ img.mode = PILMode.PA) →
        img1 = convertRGBA img) ∧
      (¬(img.mode = PILMode.P ∨ img.mode = PILMode.PA) → img1 = img) := by
  refine ⟨?_, ?_, ?_⟩
  · simp [save_image, hext, hdec, henc]
  · simp [save_image, hext, hdec, henc]
  refine ⟨if img.mode = PILMode.P ∨ img.mode = PILMode.PA
      then convertRGBA img else img, ?_, ?_, ?_, ?_, ?_⟩
  · simp [save_image, hext, hdec, henc, getFile_setFile]
  · rcases Decidable.em (img.mode = PILMode.P ∨ img.mode = PILMode.PA)
      with hm | hm <;> simp [hm, convertRGBA]
  · rcases Decidable.em (img.mode = PILMode.P ∨ img.mode = PILMode.PA)
      with hm | hm <;> simp [hm, convertRGBA]
  · intro hm
    rw [if_pos hm]
  · intro hm
    rw [if_neg hm]

def demoPalImg : PILImage :=
  { mode := PILMode.P, width := 4, height := 5, pixels := [1] }

def demoPngFile : FileStorage :=
  { filename := "g.png", content := [3], decoded := some demoPalImg,
    encodeOk := true }

theorem save_image_converts_webp_witness :
    (save_image id [] demoPngFile "product_7").filename =
      "product_7" ++ ".webp" ∧
    (save_image id [] demoPngFile "product_7").converted = true ∧
    ∃ img1 : PILImage,
      getFile (save_image id [] demoPngFile "product_7").fs
          ("product_7" ++ ".webp") = some (FileContent.webpEnc 85 img1) ∧
      img1.width = demoPalImg.width ∧ img1.height = demoPalImg.height ∧
      ((demoPalImg.mode = PILMode.P ∨ demoPalImg.mode = PILMode.PA) →
        img1 = convertRGBA demoPalImg) ∧
      (¬(demoPalImg.mode = PILMode.P ∨ demoPalImg.mode = PILMode.PA) →
        img1 = demoPalImg) :=
  save_image_converts_webp id [] demoPngFile "product_7" demoPalImg
    (by decide) rfl rfl

/-- Claim C9: the index page's featured list has at most 4 entries, only
products of the store that carry a `views` field, is ordered by
non-increasing views, and no excluded product carrying a `views` field has
strictly more views than an included one. -/
theorem featured_products_spec (products : List Product) :
    (featured_products products).length ≤ 4 ∧
    (∀ p ∈ featured_products products,
      p ∈ products ∧ p.views.isSome = true) ∧
    List.Pairwise (fun a b => viewsKey b ≤ viewsKey a)
      (featured_products products) ∧
    (∀ q ∈ products, q.views.isSome = true →
      q ∉ featured_products products →
      ∀ p ∈ featured_products products, viewsKey q ≤ viewsKey p) := by
  have hperm :
      List.Perm
        (List.insertionSort featRel
          (List.filter (fun p => p.views.isSome) products))
        (List.filter (fun p => p.views.isSome) products) :=
    List.perm_insertionSort featRel _
  have hsorted :
      List.Pairwise featRel
        (List.insertionSort featRel
          (List.filter (fun p => p.views.isSome) products)) :=
    List.sorted_insertionSort featRel _
  refine ⟨?_, ?_, ?_, ?_⟩
  · exact List.length_take_le 4 _
  · intro p hp
    have hmem : p ∈ List.insertionSort featRel
        (List.filter (fun p => p.views.isSome) products) :=
      List.mem_of_mem_take hp
    have hf := List.mem_filter.mp (hperm.mem_iff.mp hmem)
    exact ⟨hf.1, by simpa using hf.2⟩
  · exact List.Pairwise.sublist (List.take_sublist 4 _) hsorted
  · intro q hq hqv hqn p hp
    have hqf : q ∈ List.filter (fun p => p.views.isSome) products :=
      List.mem_filter.mpr ⟨hq, by simpa using hqv⟩
    have hqs : q ∈ List.insertionSort featRel
        (List.filter (fun p => p.views.isSome) products) :=
      hperm.mem_iff.mpr hqf
    rw [← List.take_append_drop 4 (List.insertionSort featRel
      (List.filter (fun p => p.views.isSome) products))] at hqs
    have hqd : q ∈ (List.insertionSort featRel
        (List.filter (fun p => p.views.isSome) products)).drop 4 := by
      rcases List.mem_append.mp hqs with h | h
      · exact absurd h hqn
      · exact h
    have hpw := hsorted
    rw [← List.take_append_drop 4 (List.insertionSort featRel
      (List.filter (fun p => p.views.isSome) products))] at hpw
    exact (List.pairwise_append.mp hpw).2.2 p hp q hqd

def demoQ : Product :=
  { id := 10, name := "q", description := "", price := 0, image := "",
    category_id := 1, views := some 1 }

def demoF1 : Product :=
  { id := 11, name := "f1", description := "", price := 0, image := "",
    category_id := 1, views := some 5 }

def demoF2 : Product :=
  { id := 12, name := "f2", description := "", price := 0, image := "",
    category_id := 1, views := some 4 }

def demoF3 : Product :=
  { id := 13, name := "f3", description := "", price := 0, image := "",
    category_id := 1, views := some 3 }

def demoF4 : Product :=
  { id := 14, name := "f4", description := "", price := 0, image := "",
    category_id := 1, views := some 2 }

def demoFive : List Product := [demoQ, demoF1, demoF2, demoF3, demoF4]

theorem featured_products_spec_witness :
    (featured_products demoFive).length ≤ 4 ∧
    viewsKey demoQ ≤ viewsKey demoF4 := by
  have h := featured_products_spec demoFive
  exact ⟨h.1, h.2.2.2 demoQ (by decide) (by decide) (by decide)
    demoF4 (by decide)⟩

theorem delete_product_fs_found (sanitize : String → String) (fs : FS)
    (products : List Product) (product_id : Int) (p0 : Product)
    (hfind : List.find? (fun p => p.id == product_id) products = some p0) :
    (delete_product sanitize fs products product_id).fs =
      if p0.image ≠ "" then tryRemove fs (sanitize (basename p0.image))
      else fs := by
  unfold delete_product
  rw [hfind]

theorem edit_product_upload_spec (sanitize : String → String) (now : Int)
    (fs : FS) (products : List Product) (product_id : Int)
    (form : EditProductForm) (p0 : Product) (file : FileStorage)
    (hfind : List.find? (fun p => p.id == product_id) products = some p0)
    (hform : form.imageUpload = some file) (hfn : file.filename ≠ "")
    (himg : p0.image ≠ "")
    (herr : os_remove fs (sanitize (basename p0.image)) =
      Except.error ()) :
    (edit_product sanitize now fs products product_id form).products =
      updateFirst (fun p => p.id == product_id)
        (fun p => { applyEditFields form p with
          image := uploadsUrl (save_image sanitize fs file
            ("product_" ++ toString product_id ++ "_" ++
              toString now)).filename })
        products ∧
    (edit_product sanitize now fs products product_id form).response =
      Response.redirect "admin" := by
  have hrm : tryRemove fs (sanitize (basename p0.image)) = fs := by
    unfold tryRemove
    rw [herr]
  unfold edit_product
  rw [hfind, hform]
  simp only [hfn, himg, hrm, not_false_iff, decide_True, decide_False,
    Bool.not_false, if_true, ite_true, ite_self, decide_not]
  exact ⟨trivial, trivial⟩

theorem edit_category_upload_spec (sanitize : String → String) (now : Int)
    (fs : FS) (categories : List Category) (category_id : Int)
    (form : EditCategoryForm) (c0 : Category) (file : FileStorage)
    (hfind : List.find? (fun c => c.id == category_id) categories = some c0)
    (hform : form.imageUpload = some file) (hfn : file.filename ≠ "")
    (himg : c0.image ≠ "")
    (herr : os_remove fs (sanitize (basename c0.image)) =
      Except.error ()) :
    (edit_category sanitize now fs categories category_id form).categories =
      updateFirst (fun c => c.id == category_id)
        (fun c => { c with
          name := form.name
          image := uploadsUrl (save_image sanitize fs file
            ("category_" ++ toString category_id ++ "_" ++
              toString now)).filename })
        categories ∧
    (edit_category sanitize now fs categories category_id form).response =
      Response.redirect "manage_categories" := by
  have hrm : tryRemove fs (sanitize (basename c0.image)) = fs := by
    unfold tryRemove
    rw [herr]
  unfold edit_category
  rw [hfind, hform]
  simp only [hfn, himg, hrm, not_false_iff, decide_True, decide_False,
    Bool.not_false, if_true, ite_true, ite_self, decide_not]
  exact ⟨trivial, trivial⟩

/-- Claim C7: when removing the old image file raises
`FileNotFoundError` (the file is absent from the uploads folder), product
deletion and product or category image replacement all swallow the error
and still complete their store mutation, redirecting as on success; the
deletion moreover leaves the uploads folder untouched. -/
theorem missing_image_cleanup_ignored
    (sanitize : String → String) (now : Int) (fs : FS)
    (l₁ l₂ : List Product) (p0 : Product) (product_id : Int)
    (c₁ c₂ : List Category) (c0 : Category) (category_id : Int)
    (pform : EditProductForm) (cform : EditCategoryForm)
    (pfile cfile : FileStorage) :
    ((∀ q ∈ l₁, q.id ≠ product_id) → p0.id = product_id →
      p0.image ≠ "" →
      os_remove fs (sanitize (basename p0.image)) = Except.error () →
      (delete_product sanitize fs (l₁ ++ p0 :: l₂) product_id).fs = fs ∧
      (delete_product sanitize fs (l₁ ++ p0 :: l₂) product_id).products =
        List.filter (fun p => p.id ≠ product_id) (l₁ ++ p0 :: l₂) ∧
      (delete_product sanitize fs (l₁ ++ p0 :: l₂) product_id).response =
        Response.redirect "admin") ∧
    ((∀ q ∈ l₁, q.id ≠ product_id) → p0.id = product_id →
      p0.image ≠ "" →
      pform.imageUpload = some pfile → pfile.filename ≠ "" →
      os_remove fs (sanitize (basename p0.image)) = Except.error () →
      (edit_product sanitize now fs (l₁ ++ p0 :: l₂) product_id
          pform).products =
        l₁ ++ { applyEditFields pform p0 with
          image := uploadsUrl (save_image sanitize fs pfile
            ("product_" ++ toString product_id ++ "_" ++
              toString now)).filename } :: l₂ ∧
      (edit_product sanitize now fs (l₁ ++ p0 :: l₂) product_id
          pform).response = Response.redirect "admin") ∧
    ((∀ d ∈ c₁, d.id ≠ category_id) → c0.id = category_id →
      c0.image ≠ "" →
      cform.imageUpload = some cfile → cfile.filename ≠ "" →
      os_remove fs (sanitize (basename c0.image)) = Except.error () →
      (edit_category sanitize now fs (c₁ ++ c0 :: c₂) category_id
          cform).categories =
        c₁ ++ { c0 with
          name := cform.name
          image := uploadsUrl (save_image sanitize fs cfile
            ("category_" ++ toString category_id ++ "_" ++
              toString now)).filename } :: c₂ ∧
      (edit_category sanitize now fs (c₁ ++ c0 :: c₂) category_id
          cform).response = Response.redirect "manage_categories") := by
  refine ⟨?_, ?_, ?_⟩
  · intro hfirst hid himg herr
    have hfind : List.find? (fun p => p.id == product_id)
        (l₁ ++ p0 :: l₂) = some p0 :=
      find?_append_first _ l₁ l₂ p0
        (fun q hq => beq_eq_false_iff_ne.mpr (hfirst q hq))
        (beq_iff_eq.mpr hid)
    refine ⟨?_, rfl, rfl⟩
    rw [delete_product_fs_found sanitize fs (l₁ ++ p0 :: l₂)
      product_id p0 hfind, if_pos himg]
    unfold tryRemove
    rw [herr]
  · intro hfirst hid himg hform hfn herr
    have hfind : List.find? (fun p => p.id == product_id)
        (l₁ ++ p0 :: l₂) = some p0 :=
      find?_append_first _ l₁ l₂ p0
        (fun q hq => beq_eq_false_iff_ne.mpr (hfirst q hq))
        (beq_iff_eq.mpr hid)
    obtain ⟨hprod, hresp⟩ := edit_product_upload_spec sanitize now fs
      (l₁ ++ p0 :: l₂) product_id pform p0 pfile hfind hform hfn himg herr
    refine ⟨?_, hresp⟩
    rw [hprod, updateFirst_append _ _ l₁ l₂ p0
      (fun q hq => beq_eq_false_iff_ne.mpr (hfirst q hq))
      (beq_iff_eq.mpr hid)]
  · intro hfirst hid himg hform hfn herr
    have hfind : List.find? (fun c => c.id == category_id)
        (c₁ ++ c0 :: c₂) = some c0 :=
      find?_append_first _ c₁ c₂ c0
        (fun d hd => beq_eq_false_iff_ne.mpr (hfirst d hd))
        (beq_iff_eq.mpr hid)
    obtain ⟨hcat, hresp⟩ := edit_category_upload_spec sanitize now fs
      (c₁ ++ c0 :: c₂) category_id cform c0 cfile hfind hform hfn himg herr
    refine ⟨?_, hresp⟩
    rw [hcat, updateFirst_append _ _ c₁ c₂ c0
      (fun d hd => beq_eq_false_iff_ne.mpr (hfirst d hd))
      (beq_iff_eq.mpr hid)]

/-- The filenames the product loop of `delete_category` removes: one for
each product of the category that has a nonempty image. -/
def prodRemovedNames (sanitize : String → String) (category_id : Int)
    (ps : List Product) : List String :=
  (List.filter (fun p => p.category_id = category_id ∧ p.image ≠ "") ps).map
    (fun p => sanitize (basename p.image))

/-- All filenames `delete_category` removes: the category image (when
nonempty) plus the images of its products. -/
def cascadeRemovedNames (sanitize : String → String) (c0 : Category)
    (products : List Product) (category_id : Int) : List String :=
  (if c0.image ≠ "" then [sanitize (basename c0.image)] else []) ++
    prodRemovedNames sanitize category_id products

theorem decide_not_mem_cons (x n : String) (ns : List String) :
    (decide (x ∉ ns) && decide (x ≠ n)) = decide (x ∉ n :: ns) := by
  by_cases h1 : x = n <;> by_cases h2 : x ∈ ns <;> simp [h1, h2]

theorem deleteCatProducts_keep (sanitize : String → String)
    (category_id : Int) (ps : List Product) :
    ∀ fs : FS, (deleteCatProducts sanitize category_id fs ps).2.1 =
      List.filter (fun p => p.category_id ≠ category_id) ps := by
  induction ps with
  | nil => intro fs; rfl
  | cons p rest ih =>
    intro fs
    by_cases hc : p.category_id = category_id
    · simp [deleteCatProducts, hc, ih]
    · simp [deleteCatProducts, hc, ih]

theorem deleteCatProducts_count (sanitize : String → String)
    (category_id : Int) (ps : List Product) :
    ∀ fs : FS, (deleteCatProducts sanitize category_id fs ps).2.2 =
      (List.filter (fun p => p.category_id = category_id) ps).length := by
  induction ps with
  | nil => intro fs; rfl
  | cons p rest ih =>
    intro fs
    by_cases hc : p.category_id = category_id
    · simp [deleteCatProducts, hc, ih]
    · simp [deleteCatProducts, hc, ih]

theorem deleteCatProducts_fs (sanitize : String → String)
    (category_id : Int) (ps : List Product) :
    ∀ fs : FS, (deleteCatProducts sanitize category_id fs ps).1 =
      List.filter
        (fun e => e.1 ∉ prodRemovedNames sanitize category_id ps) fs := by
  induction ps with
  | nil =>
    intro fs
    simp [deleteCatProducts, prodRemovedNames]
  | cons p rest ih =>
    intro fs
    by_cases hc : p.category_id = category_id
    · by_cases himg : p.image = ""
      · have hnames : prodRemovedNames sanitize category_id (p :: rest) =
            prodRemovedNames sanitize category_id rest := by
          simp [prodRemovedNames, hc, himg]
        have hstep : (deleteCatProducts sanitize category_id fs
            (p :: rest)).1 =
            (deleteCatProducts sanitize category_id fs rest).1 := by
          simp [deleteCatProducts, hc, himg]
        rw [hstep, ih, hnames]
      · have hnames : prodRemovedNames sanitize category_id (p :: rest) =
            sanitize (basename p.image) ::
              prodRemovedNames sanitize category_id rest := by
          simp [prodRemovedNames, hc, himg]
        have hstep : (deleteCatProducts sanitize category_id fs
            (p :: rest)).1 =
            (deleteCatProducts sanitize category_id
              (tryRemove fs (sanitize (basename p.image))) rest).1 := by
          simp [deleteCatProducts, hc, himg]
        rw [hstep, ih, tryRemove_eq_filter, List.filter_filter, hnames]
        apply List.filter_congr
        intro e _
        exact decide_not_mem_cons e.1 (sanitize (basename p.image))
          (prodRemovedNames sanitize category_id rest)
    · have hnames : prodRemovedNames sanitize category_id (p :: rest) =
          prodRemovedNames sanitize category_id rest := by
        simp [prodRemovedNames, hc]
      have hstep : (deleteCatProducts sanitize category_id fs
          (p :: rest)).1 =
          (deleteCatProducts sanitize category_id fs rest).1 := by
        simp [deleteCatProducts, hc]
      rw [hstep, ih, hnames]

theorem getFile_filter_not_mem (fs : FS) (names : List String)
    (name : String) (h : name ∈ names) :
    getFile (List.filter (fun e => e.1 ∉ names) fs) name = none := by
  unfold getFile
  cases hf : List.find? (fun e => e.1 = name)
      (List.filter (fun e => e.1 ∉ names) fs) with
  | none => rfl
  | some e =>
    exfalso
    have h1 : e.1 = name := by simpa using List.find?_some hf
    have h2 := List.mem_of_find?_eq_some hf
    have h3 : e.1 ∉ names := by simpa using (List.mem_filter.mp h2).2
    exact h3 (h1 ▸ h)

theorem delete_category_found (sanitize : String → String) (fs : FS)
    (categories : List Category) (products : List Product)
    (category_id : Int) (c0 : Category)
    (hfind : List.find? (fun c => c.id == category_id) categories =
      some c0) :
    (delete_category sanitize fs categories products
        category_id).categories =
      List.filter (fun c => c.id ≠ category_id) categories ∧
    (delete_category sanitize fs categories products category_id).products =
      List.filter (fun p => p.category_id ≠ category_id) products ∧
    (delete_category sanitize fs categories products category_id).fs =
      List.filter
        (fun e => e.1 ∉ cascadeRemovedNames sanitize c0 products
          category_id) fs ∧
    (delete_category sanitize fs categories products category_id).response =
      Response.redirect "manage_categories" := by
  unfold delete_category
  rw [hfind]
  refine ⟨rfl, ?_, ?_, rfl⟩
  · show (if (deleteCatProducts sanitize category_id
        (if c0.image ≠ "" then tryRemove fs (sanitize (basename c0.image))
          else fs) products).2.2 > 0 then
        (deleteCatProducts sanitize category_id
          (if c0.image ≠ "" then tryRemove fs (sanitize (basename c0.image))
            else fs) products).2.1
      else products) =
      List.filter (fun p => p.category_id ≠ category_id) products
    rw [deleteCatProducts_keep, deleteCatProducts_count]
    by_cases hz : (List.filter (fun p => p.category_id = category_id)
        products).length > 0
    · rw [if_pos hz]
    · rw [if_neg hz]
      have hlen : (List.filter (fun p => p.category_id = category_id)
          products).length = 0 := Nat.eq_zero_of_not_pos hz
      have hnil := List.length_eq_zero.mp hlen
      have hall : ∀ p ∈ products, ¬ p.category_id = category_id := by
        intro p hp hcp
        have hmem : p ∈ List.filter
            (fun p => p.category_id = category_id) products :=
          List.mem_filter.mpr ⟨hp, by simpa using hcp⟩
        rw [hnil] at hmem
        cases hmem
      exact (List.filter_eq_self.mpr
        (fun p hp => by simpa using hall p hp)).symm
  · show (deleteCatProducts sanitize category_id
        (if c0.image ≠ "" then tryRemove fs (sanitize (basename c0.image))
          else fs) products).1 =
      List.filter
        (fun e => e.1 ∉ cascadeRemovedNames sanitize c0 products
          category_id) fs
    by_cases himg : c0.image = ""
    · rw [if_neg (by simpa using himg), deleteCatProducts_fs]
      apply List.filter_congr
      intro e _
      simp [cascadeRemovedNames, himg]
    · rw [if_pos himg, tryRemove_eq_filter, deleteCatProducts_fs,
        List.filter_filter]
      apply List.filter_congr
      intro e _
      have hd := decide_not_mem_cons e.1 (sanitize (basename c0.image))
        (prodRemovedNames sanitize category_id products)
      simpa [cascadeRemovedNames, himg] using hd

/-- Claim C1: when the category store contains a category with the given
id, `delete_category` removes every category with that id from the
categories store, removes exactly the products whose `category_id` equals
the id from the products store (keeping every other product), and removes
from the uploads folder exactly the category's image file and the image
file of each deleted product, completing with the usual redirect. -/
theorem delete_category_cascade (sanitize : String → String) (fs : FS)
    (l₁ l₂ : List Category) (c0 : Category) (products : List Product)
    (category_id : Int)
    (hfirst : ∀ c ∈ l₁, c.id ≠ category_id) (hc : c0.id = category_id) :
    (delete_category sanitize fs (l₁ ++ c0 :: l₂) products
        category_id).categories =
      List.filter (fun c => c.id ≠ category_id) (l₁ ++ c0 :: l₂) ∧
    (delete_category sanitize fs (l₁ ++ c0 :: l₂) products
        category_id).products =
      List.filter (fun p => p.category_id ≠ category_id) products ∧
    (∀ p ∈ products, p.category_id ≠ category_id →
      p ∈ (delete_category sanitize fs (l₁ ++ c0 :: l₂) products
        category_id).products) ∧
    (delete_category sanitize fs (l₁ ++ c0 :: l₂) products category_id).fs =
      List.filter
        (fun e => e.1 ∉ cascadeRemovedNames sanitize c0 products
          category_id) fs ∧
    (∀ name ∈ cascadeRemovedNames sanitize c0 products category_id,
      getFile (delete_category sanitize fs (l₁ ++ c0 :: l₂) products
        category_id).fs name = none) ∧
    (delete_category sanitize fs (l₁ ++ c0 :: l₂) products
        category_id).response = Response.redirect "manage_categories" := by
  have hfind : List.find? (fun c => c.id == category_id)
      (l₁ ++ c0 :: l₂) = some c0 :=
    find?_append_first _ l₁ l₂ c0
      (fun d hd => beq_eq_false_iff_ne.mpr (hfirst d hd))
      (beq_iff_eq.mpr hc)
  obtain ⟨hcats, hprods, hfs, hresp⟩ :=
    delete_category_found sanitize fs (l₁ ++ c0 :: l₂) products
      category_id c0 hfind
  refine ⟨hcats, hprods, ?_, hfs, ?_, hresp⟩
  · intro p hp hne
    rw [hprods]
    exact List.mem_filter.mpr ⟨hp, by simpa using hne⟩
  · intro name hname
    rw [hfs]
    exact getFile_filter_not_mem fs _ name hname

def demoCascProdA : Product :=
  { id := 21, name := "pa", description := "", price := 0,
    image := "/uploads/product_21.webp", category_id := 1, views := some 0 }

def demoCascProdB : Product :=
  { id := 22, name := "pb", description := "", price := 0,
    image := "/uploads/product_22.webp", category_id := 2, views := some 0 }

def demoFs : FS :=
  [("category_1.webp", FileContent.raw [1]),
   ("product_21.webp", FileContent.raw [2]),
   ("product_22.webp", FileContent.raw [3])]

theorem delete_category_cascade_witness :
    (delete_category id demoFs ([] ++ demoCat :: [])
        [demoCascProdA, demoCascProdB] 1).categories =
      List.filter (fun c => c.id ≠ 1) ([] ++ demoCat :: []) ∧
    (delete_category id demoFs ([] ++ demoCat :: [])
        [demoCascProdA, demoCascProdB] 1).products =
      List.filter (fun p => p.category_id ≠ 1)
        [demoCascProdA, demoCascProdB] ∧
    (∀ p ∈ [demoCascProdA, demoCascProdB], p.category_id ≠ 1 →
      p ∈ (delete_category id demoFs ([] ++ demoCat :: [])
        [demoCascProdA, demoCascProdB] 1).products) ∧
    (delete_category id demoFs ([] ++ demoCat :: [])
        [demoCascProdA, demoCascProdB] 1).fs =
      List.filter
        (fun e => e.1 ∉ cascadeRemovedNames id demoCat
          [demoCascProdA, demoCascProdB] 1) demoFs ∧
    (∀ name ∈ cascadeRemovedNames id demoCat
        [demoCascProdA, demoCascProdB] 1,
      getFile (delete_category id demoFs ([] ++ demoCat :: [])
        [demoCascProdA, demoCascProdB] 1).fs name = none) ∧
    (delete_category id demoFs ([] ++ demoCat :: [])
        [demoCascProdA, demoCascProdB] 1).response =
      Response.redirect "manage_categories" :=
  delete_category_cascade id demoFs [] [] demoCat
    [demoCascProdA, demoCascProdB] 1 (by decide) rfl

def cexForm : CreateProductForm :=
  { name := "X", description := "d", price := 0, category_id := 2,
    imageUpload := some demoFile }

/-- Claim C8 counterexample: starting from stores satisfying referential
integrity (category 1 exists, no products), creating a product whose form
carries `category_id = 2` leaves a product pointing at a category that does
not exist — the creation handler performs no validation of the submitted
`category_id`. -/
theorem refintegrity_can_break :
    refIntegrity [] [demoCat] ∧
    ¬ refIntegrity (admin_post id [] [] cexForm).products [demoCat] := by
  constructor
  · intro p hp
    cases hp
  · decide

theorem edit_product_found_products (sanitize : String → String)
    (now : Int) (fs : FS) (products : List Product) (product_id : Int)
    (form : EditProductForm) (p0 : Product) (file : FileStorage)
    (hfind : List.find? (fun p => p.id == product_id) products = some p0)
    (hform : form.imageUpload = some file) (hfn : file.filename ≠ "") :
    (edit_product sanitize now fs products product_id form).products =
      updateFirst (fun p => p.id == product_id)
        (fun p => { applyEditFields form p with
          image := uploadsUrl (save_image sanitize
            (if p0.image ≠ "" then
              tryRemove fs (sanitize (basename p0.image)) else fs) file
            ("product_" ++ toString product_id ++ "_" ++
              toString now)).filename })
        products := by
  unfold edit_product
  rw [hfind, hform]
  simp only [hfn, not_false_iff, decide_True, decide_False,
    Bool.not_false, decide_not]

/-- Claim C8 (amended): product deletion and category deletion always
preserve referential integrity; product creation and product editing
preserve it provided the category id submitted in the form references an
existing category (the handlers accept it unvalidated, which is what the
counterexample exploits). -/
theorem catalog_mutations_preserve_refIntegrity
    (sanitize : String → String) (now : Int) (fs : FS)
    (products : List Product) (categories : List Category)
    (cform : CreateProductForm) (eform : EditProductForm)
    (product_id category_id : Int) :
    (refIntegrity products categories →
      (∃ c ∈ categories, c.id = cform.category_id) →
      refIntegrity (admin_post sanitize fs products cform).products
        categories) ∧
    (refIntegrity products categories →
      (∃ c ∈ categories, c.id = eform.category_id) →
      refIntegrity
        (edit_product sanitize now fs products product_id eform).products
        categories) ∧
    (refIntegrity products categories →
      refIntegrity
        (delete_product sanitize fs products product_id).products
        categories) ∧
    (refIntegrity products categories →
      refIntegrity
        (delete_category sanitize fs categories products
          category_id).products
        (delete_category sanitize fs categories products
          category_id).categories) := by
  refine ⟨?_, ?_, ?_, ?_⟩
  · intro hint hcat
    cases hupload : cform.imageUpload with
    | none =>
      unfold admin_post
      rw [hupload]
      exact hint
    | some file =>
      by_cases hfn : file.filename = ""
      · unfold admin_post
        rw [hupload]
        simp only [hfn, if_true, ite_true]
        exact hint
      · obtain ⟨p, hout, -, hpcid, -⟩ :=
          admin_post_appends sanitize fs products cform file hupload hfn
        rw [hout]
        intro q hq
        rcases List.mem_append.mp hq with h | h
        · exact hint q h
        · obtain ⟨c, hcmem, hcid⟩ := hcat
          have hq2 : q = p := by simpa using h
          exact ⟨c, hcmem, by rw [hq2, hpcid]; exact hcid⟩
  · intro hint hcat
    cases hfind : List.find? (fun p => p.id == product_id) products with
    | none =>
      unfold edit_product
      rw [hfind]
      exact hint
    | some p0 =>
      cases hup : eform.imageUpload with
      | none =>
        unfold edit_product
        rw [hfind, hup]
        intro q hq
        rcases updateFirst_mem _ _ products q hq with h | ⟨y, hy, rfl⟩
        · exact hint q h
        · obtain ⟨c, hcmem, hcid⟩ := hcat
          exact ⟨c, hcmem, by simpa [applyEditFields] using hcid⟩
      | some file =>
        by_cases hfn : file.filename = ""
        · unfold edit_product
          rw [hfind, hup]
          simp only [hfn, decide_True, Bool.not_true, decide_not]
          intro q hq
          rcases updateFirst_mem _ _ products q hq with h | ⟨y, hy, rfl⟩
          · exact hint q h
          · obtain ⟨c, hcmem, hcid⟩ := hcat
            exact ⟨c, hcmem, by simpa [applyEditFields] using hcid⟩
        · rw [edit_product_found_products sanitize now fs products
            product_id eform p0 file hfind hup hfn]
          intro q hq
          rcases updateFirst_mem _ _ products q hq with h | ⟨y, hy, rfl⟩
          · exact hint q h
          · obtain ⟨c, hcmem, hcid⟩ := hcat
            exact ⟨c, hcmem, by simpa [applyEditFields] using hcid⟩
  · intro hint q hq
    have hq2 : q ∈ List.filter (fun p => p.id ≠ product_id) products := hq
    exact hint q (List.mem_filter.mp hq2).1
  · intro hint
    cases hfind : List.find? (fun c => c.id == category_id) categories with
    | none =>
      unfold delete_category
      rw [hfind]
      exact hint
    | some c0 =>
      obtain ⟨hcats, hprods, -, -⟩ :=
        delete_category_found sanitize fs categories products
          category_id c0 hfind
      rw [hcats, hprods]
      intro q hq
      have hqm := List.mem_filter.mp hq
      obtain ⟨c, hcmem, hcid⟩ := hint q hqm.1
      have hqc : q.category_id ≠ category_id := by simpa using hqm.2
      refine ⟨c, List.mem_filter.mpr ⟨hcmem, ?_⟩, hcid⟩
      rw [hcid]
      simpa using hqc

def demoOkForm : CreateProductForm :=
  { name := "X", description := "d", price := 0, category_id := 1,
    imageUpload := some demoFile }

def demoEForm : EditProductForm :=
  { name := "e", description := "", price := 0, category_id := 1,
    imageUpload := none }

theorem catalog_mutations_witness :
    refIntegrity (admin_post id [] [] demoOkForm).products [demoCat] ∧
    refIntegrity
      (delete_category id [] [demoCat] [demoCascProdA] 1).products
      (delete_category id [] [demoCat] [demoCascProdA] 1).categories :=
  ⟨(catalog_mutations_preserve_refIntegrity id 0 [] [] [demoCat]
      demoOkForm demoEForm 1 1).1 (by decide) (by decide),
   (catalog_mutations_preserve_refIntegrity id 0 [] [demoCascProdA]
      [demoCat] demoOkForm demoEForm 1 1).2.2.2 (by decide)⟩

def demoPEForm : EditProductForm :=
  { name := "n", description := "", price := 0, category_id := 1,
    imageUpload := some demoFile }

def demoCEForm : EditCategoryForm :=
  { name := "n", imageUpload := some demoFile }

theorem missing_image_cleanup_ignored_witness :
    ((delete_product id [] ([] ++ demoCascProdA :: []) 21).fs = [] ∧
     (delete_product id [] ([] ++ demoCascProdA :: []) 21).products =
       List.filter (fun p => p.id ≠ 21) ([] ++ demoCascProdA :: []) ∧
     (delete_product id [] ([] ++ demoCascProdA :: []) 21).response =
       Response.redirect "admin") ∧
    ((edit_product id 0 [] ([] ++ demoCascProdA :: []) 21
        demoPEForm).products =
      [] ++ { applyEditFields demoPEForm demoCascProdA with
        image := uploadsUrl (save_image id [] demoFile
          ("product_" ++ toString (21 : Int) ++ "_" ++
            toString (0 : Int))).filename } :: [] ∧
     (edit_product id 0 [] ([] ++ demoCascProdA :: []) 21
        demoPEForm).response = Response.redirect "admin") ∧
    ((edit_category id 0 [] ([] ++ demoCat :: []) 1
        demoCEForm).categories =
      [] ++ { demoCat with
        name := demoCEForm.name
        image := uploadsUrl (save_image id [] demoFile
          ("category_" ++ toString (1 : Int) ++ "_" ++
            toString (0 : Int))).filename } :: [] ∧
     (edit_category id 0 [] ([] ++ demoCat :: []) 1
        demoCEForm).response = Response.redirect "manage_categories") :=
  ⟨(missing_image_cleanup_ignored id 0 [] [] [] demoCascProdA 21 [] []
      demoCat 1 demoPEForm demoCEForm demoFile demoFile).1
      (by decide) rfl (by decide) rfl,
   (missing_image_cleanup_ignored id 0 [] [] [] demoCascProdA 21 [] []
      demoCat 1 demoPEForm demoCEForm demoFile demoFile).2.1
      (by decide) rfl (by decide) rfl (by decide) rfl,
   (missing_image_cleanup_ignored id 0 [] [] [] demoCascProdA 21 [] []
      demoCat 1 demoPEForm demoCEForm demoFile demoFile).2.2
      (by decide) rfl (by decide) rfl (by decide) rfl⟩
